import Mathlib

/-!
Verification of the Sailer deployment orchestrator (`src/files/git/deployer.js`).

The JavaScript source is shallowly embedded: strings are lists of characters
(`Str`), the `Deployer` object is a structure holding the constructor state,
nondeterministic external results (clone/build/registration outcomes, the port
returned by `get-port`, docker inspect data, the persisted configuration) are
collected in a `World` record, and each side-effecting pipeline run is mapped
to the list of external actions it performs, in source order.
-/

namespace Sailer

/-- Strings of the JavaScript program are modelled as lists of characters. -/
abbrev Str := List Char

/-- Shorthand turning a Lean string literal into the `Str` model. -/
def str (s : String) : Str := s.toList

/-- JS `String.prototype.startsWith`: `startsWithL pre s` is true when `pre`
is a prefix of `s`. -/
def startsWithL : Str → Str → Bool
  | [], _ => true
  | _ :: _, [] => false
  | c :: cs, x :: xs => c = x && startsWithL cs xs

/-- JS `String.prototype.endsWith`: true when `suf` is a suffix of `s`. -/
def endsWithL (suf s : Str) : Bool :=
  startsWithL suf.reverse s.reverse

/-- JS `s.indexOf(c)` followed by `s.substr(firstIndex + 1)`, merged into one
operation: `none` when `c` does not occur (`indexOf` returned `-1`), otherwise
the characters strictly after the first occurrence of `c`. -/
def dropAfterFirst (c : Char) : Str → Option Str
  | [] => none
  | x :: xs => if x = c then some xs else dropAfterFirst c xs

/-- JS `s.replace(a, b)` for one-character patterns: replaces the first
occurrence of `a` by `b`, leaving the rest unchanged. -/
def replaceFirstChar (a b : Char) : Str → Str
  | [] => []
  | x :: xs => if x = a then b :: xs else x :: replaceFirstChar a b xs

/-- JS `s.split(c)`: the maximal chunks of `s` separated by `c`. -/
def jsSplit (c : Char) : Str → List Str
  | [] => [[]]
  | x :: xs =>
    match jsSplit c xs with
    | [] => [[]]
    | y :: ys => if x = c then [] :: y :: ys else (x :: y) :: ys

/-! ## URL normalization (`Deployer.parseRepoUrl`, deployer.js:317-336) -/

/-- deployer.js:327-329 — strip a trailing `.git` from the partially
normalized reference. -/
def stripGitSuffix (u : Str) : Str :=
  if endsWithL (str ".git") u then u.take (u.length - 4) else u

/-- deployer.js:330-334 — if the reference contains `@`, drop everything up
to and including the first `@` and replace the first `:` by `/`. -/
def rewriteAuthority (u : Str) : Str :=
  match dropAfterFirst '@' u with
  | none => u
  | some rest => replaceFirstChar ':' '/' rest

/-- The normalization steps of deployer.js:327-334 that follow scheme
stripping: `.git` removal, then ssh-style authority rewriting. -/
def afterScheme (u : Str) : Str :=
  rewriteAuthority (stripGitSuffix u)

/-- `Deployer.parseRepoUrl` (deployer.js:317-336).  Returns the canonical
repository reference together with the protocol recorded for later cloning
(`https` unless the raw reference used `http://`). -/
def parseRepoUrl (rawRepo : Str) : Str × Str :=
  if startsWithL (str "http://") rawRepo then
    (afterScheme (rawRepo.drop 7), str "http")
  else if startsWithL (str "https://") rawRepo then
    (afterScheme (rawRepo.drop 8), str "https")
  else if startsWithL (str "ssh://") rawRepo || startsWithL (str "git://") rawRepo then
    (afterScheme (rawRepo.drop 6), str "https")
  else
    (afterScheme rawRepo, str "https")

/-! ## Basic lemmas about the string operations -/

lemma startsWithL_append_self (pre rest : Str) :
    startsWithL pre (pre ++ rest) = true := by
  induction pre with
  | nil => rfl
  | cons c cs ih => simp [startsWithL, ih]

lemma endsWithL_append_self (u s : Str) :
    endsWithL s (u ++ s) = true := by
  unfold endsWithL
  rw [List.reverse_append]
  exact startsWithL_append_self _ _

/-- A failed prefix test stays failed after appending, provided the
candidate string contains a character the prefix lacks (so the failure is a
genuine mismatch rather than the candidate being too short). -/
lemma startsWithL_append_right_false {pre l : Str} (c : Char)
    (hc : c ∈ l) (hcp : c ∉ pre) (h : startsWithL pre l = false) (m : Str) :
    startsWithL pre (l ++ m) = false := by
  induction pre generalizing l with
  | nil => simp [startsWithL] at h
  | cons p ps ih =>
    cases l with
    | nil => simp at hc
    | cons x xs =>
      simp only [List.cons_append]
      by_cases hpx : p = x
      · subst hpx
        have hcx : c ∈ xs := by
          rcases List.mem_cons.mp hc with h1 | h1
          · exact absurd (h1 ▸ List.mem_cons_self _ _) hcp
          · exact h1
        have h' : startsWithL ps xs = false := by simpa [startsWithL] using h
        have := ih (l := xs) hcx (fun hm => hcp (List.mem_cons_of_mem _ hm)) h'
        simpa [startsWithL] using this
      · simp [startsWithL, hpx]

lemma dropAfterFirst_eq_none {c : Char} {l : Str} (h : c ∉ l) :
    dropAfterFirst c l = none := by
  induction l with
  | nil => rfl
  | cons x xs ih =>
    have hx : ¬ x = c := fun hxc => h (hxc ▸ List.mem_cons_self _ _)
    simp only [dropAfterFirst, if_neg hx]
    exact ih (fun hm => h (List.mem_cons_of_mem _ hm))

lemma dropAfterFirst_append {c : Char} {u r : Str} (h : c ∉ u) :
    dropAfterFirst c (u ++ c :: r) = some r := by
  induction u with
  | nil => simp [dropAfterFirst]
  | cons x xs ih =>
    have hx : ¬ x = c := fun hxc => h (hxc ▸ List.mem_cons_self _ _)
    simp only [List.cons_append, dropAfterFirst, if_neg hx]
    exact ih (fun hm => h (List.mem_cons_of_mem _ hm))

lemma replaceFirstChar_append {a b : Char} {u r : Str} (h : a ∉ u) :
    replaceFirstChar a b (u ++ a :: r) = u ++ b :: r := by
  induction u with
  | nil => simp [replaceFirstChar]
  | cons x xs ih =>
    have hx : ¬ x = a := fun hxa => h (hxa ▸ List.mem_cons_self _ _)
    simp only [List.cons_append, replaceFirstChar, if_neg hx]
    exact congrArg (x :: ·) (ih (fun hm => h (List.mem_cons_of_mem _ hm)))

lemma stripGitSuffix_of_not {u : Str} (h : endsWithL (str ".git") u = false) :
    stripGitSuffix u = u := by
  simp [stripGitSuffix, h]

lemma stripGitSuffix_append (u : Str) :
    stripGitSuffix (u ++ str ".git") = u := by
  have h1 : endsWithL (str ".git") (u ++ str ".git") = true :=
    endsWithL_append_self u _
  rw [stripGitSuffix, if_pos h1]
  have h4 : (str ".git").length = 4 := rfl
  have hlen : (u ++ str ".git").length - 4 = u.length := by
    simp [List.length_append, h4]
  rw [hlen]
  exact List.take_left u (str ".git")

lemma rewriteAuthority_of_not {u : Str} (h : '@' ∉ u) :
    rewriteAuthority u = u := by
  simp [rewriteAuthority, dropAfterFirst_eq_none h]

lemma rewriteAuthority_ssh {user host pa : Str}
    (hu : '@' ∉ user) (hh : ':' ∉ host) :
    rewriteAuthority (user ++ '@' :: (host ++ ':' :: pa)) = host ++ '/' :: pa := by
  unfold rewriteAuthority
  rw [dropAfterFirst_append hu]
  exact replaceFirstChar_append hh

/-! ## Scheme-stripping computation lemmas -/

lemma parseRepoUrl_http (r : Str) :
    parseRepoUrl (str "http://" ++ r) = (afterScheme r, str "http") := rfl

lemma parseRepoUrl_https (r : Str) :
    parseRepoUrl (str "https://" ++ r) = (afterScheme r, str "https") := rfl

lemma parseRepoUrl_ssh (r : Str) :
    parseRepoUrl (str "ssh://" ++ r) = (afterScheme r, str "https") := rfl

lemma parseRepoUrl_git (r : Str) :
    parseRepoUrl (str "git://" ++ r) = (afterScheme r, str "https") := rfl

lemma parseRepoUrl_noScheme {r : Str}
    (h1 : startsWithL (str "http://") r = false)
    (h2 : startsWithL (str "https://") r = false)
    (h3 : startsWithL (str "ssh://") r = false)
    (h4 : startsWithL (str "git://") r = false) :
    parseRepoUrl r = (afterScheme r, str "https") := by
  unfold parseRepoUrl
  rw [h1, h2, h3, h4]
  simp

/-- C3: for every repository location `host/path`, normalization
(`parseRepoUrl`) of each of the raw forms `http://host/path`,
`https://host/path`, `ssh://host/path`, `git://host/path`, `user@host:path`,
and any of these with a trailing `.git` suffix, yields the identical
canonical string `host/path` (scheme stripped, `.git` stripped, everything up
to and including the first `@` discarded, first `:` replaced by `/`).  The
hypotheses pin down well-formedness of the location: no `@` in user, host or
path, no `:` in host, the canonical form and the ssh-style form do not end in
`.git`, and the ssh-style form does not begin with one of the schemes. -/
theorem c3_parseRepoUrl_canonical (user host pa : Str)
    (hUser : '@' ∉ user) (hHostAt : '@' ∉ host) (hPathAt : '@' ∉ pa)
    (hHostColon : ':' ∉ host)
    (hGit1 : endsWithL (str ".git") (host ++ '/' :: pa) = false)
    (hGit2 : endsWithL (str ".git") (user ++ '@' :: (host ++ ':' :: pa)) = false)
    (hS1 : startsWithL (str "http://") (user ++ '@' :: (host ++ ':' :: pa)) = false)
    (hS2 : startsWithL (str "https://") (user ++ '@' :: (host ++ ':' :: pa)) = false)
    (hS3 : startsWithL (str "ssh://") (user ++ '@' :: (host ++ ':' :: pa)) = false)
    (hS4 : startsWithL (str "git://") (user ++ '@' :: (host ++ ':' :: pa)) = false) :
    (parseRepoUrl (str "http://" ++ (host ++ '/' :: pa))).1 = host ++ '/' :: pa ∧
    (parseRepoUrl (str "https://" ++ (host ++ '/' :: pa))).1 = host ++ '/' :: pa ∧
    (parseRepoUrl (str "ssh://" ++ (host ++ '/' :: pa))).1 = host ++ '/' :: pa ∧
    (parseRepoUrl (str "git://" ++ (host ++ '/' :: pa))).1 = host ++ '/' :: pa ∧
    (parseRepoUrl (str "http://" ++ ((host ++ '/' :: pa) ++ str ".git"))).1 = host ++ '/' :: pa ∧
    (parseRepoUrl (str "https://" ++ ((host ++ '/' :: pa) ++ str ".git"))).1 = host ++ '/' :: pa ∧
    (parseRepoUrl (str "ssh://" ++ ((host ++ '/' :: pa) ++ str ".git"))).1 = host ++ '/' :: pa ∧
    (parseRepoUrl (str "git://" ++ ((host ++ '/' :: pa) ++ str ".git"))).1 = host ++ '/' :: pa ∧
    (parseRepoUrl (user ++ '@' :: (host ++ ':' :: pa))).1 = host ++ '/' :: pa ∧
    (parseRepoUrl ((user ++ '@' :: (host ++ ':' :: pa)) ++ str ".git")).1 = host ++ '/' :: pa := by
  have hCanonAt : '@' ∉ host ++ '/' :: pa := by
    intro hmem
    rcases List.mem_append.mp hmem with h1 | h1
    · exact hHostAt h1
    · rcases List.mem_cons.mp h1 with h2 | h2
      · exact absurd h2 (by decide)
      · exact hPathAt h2
  have hA : afterScheme (host ++ '/' :: pa) = host ++ '/' :: pa := by
    rw [afterScheme, stripGitSuffix_of_not hGit1, rewriteAuthority_of_not hCanonAt]
  have hAg : afterScheme ((host ++ '/' :: pa) ++ str ".git") = host ++ '/' :: pa := by
    rw [afterScheme, stripGitSuffix_append, rewriteAuthority_of_not hCanonAt]
  have hAs : afterScheme (user ++ '@' :: (host ++ ':' :: pa)) = host ++ '/' :: pa := by
    rw [afterScheme, stripGitSuffix_of_not hGit2, rewriteAuthority_ssh hUser hHostColon]
  have hAsg : afterScheme ((user ++ '@' :: (host ++ ':' :: pa)) ++ str ".git")
      = host ++ '/' :: pa := by
    rw [afterScheme, stripGitSuffix_append, rewriteAuthority_ssh hUser hHostColon]
  have hAtMem : '@' ∈ user ++ '@' :: (host ++ ':' :: pa) :=
    List.mem_append.mpr (Or.inr (List.mem_cons_self _ _))
  have hT1 := startsWithL_append_right_false '@' hAtMem (by decide) hS1 (str ".git")
  have hT2 := startsWithL_append_right_false '@' hAtMem (by decide) hS2 (str ".git")
  have hT3 := startsWithL_append_right_false '@' hAtMem (by decide) hS3 (str ".git")
  have hT4 := startsWithL_append_right_false '@' hAtMem (by decide) hS4 (str ".git")
  refine ⟨?_, ?_, ?_, ?_, ?_, ?_, ?_, ?_, ?_, ?_⟩
  · rw [parseRepoUrl_http]; exact hA
  · rw [parseRepoUrl_https]; exact hA
  · rw [parseRepoUrl_ssh]; exact hA
  · rw [parseRepoUrl_git]; exact hA
  · rw [parseRepoUrl_http]; exact hAg
  · rw [parseRepoUrl_https]; exact hAg
  · rw [parseRepoUrl_ssh]; exact hAg
  · rw [parseRepoUrl_git]; exact hAg
  · rw [parseRepoUrl_noScheme hS1 hS2 hS3 hS4]; exact hAs
  · rw [parseRepoUrl_noScheme hT1 hT2 hT3 hT4]; exact hAsg

/-- Witness for C3 at `user = "git"`, `host = "gitlab.com"`,
`path = "acme/app"`. -/
theorem c3_parseRepoUrl_canonical_witness :
    (parseRepoUrl (str "http://gitlab.com/acme/app")).1 = str "gitlab.com/acme/app" ∧
    (parseRepoUrl (str "https://gitlab.com/acme/app.git")).1 = str "gitlab.com/acme/app" ∧
    (parseRepoUrl (str "git@gitlab.com:acme/app")).1 = str "gitlab.com/acme/app" ∧
    (parseRepoUrl (str "git@gitlab.com:acme/app.git")).1 = str "gitlab.com/acme/app" := by
  have h := c3_parseRepoUrl_canonical (str "git") (str "gitlab.com") (str "acme/app")
    (by decide) (by decide) (by decide) (by decide) (by decide) (by decide)
    (by decide) (by decide) (by decide) (by decide)
  exact ⟨h.1, h.2.2.2.2.2.1, h.2.2.2.2.2.2.2.2.1, h.2.2.2.2.2.2.2.2.2⟩

/-! ## Credentials (`Deployer.doesItNeedsAuth`, `Deployer.getCloneUrl`) -/

/-- A value stored in the persisted `tokens` map: either a provider-specific
raw token string (the shorthand used for the `github` key) or a generic
`{username, token}` record. -/
inductive TokVal where
  | raw (tok : Str)
  | cred (username tok : Str)
deriving DecidableEq

/-- JS property lookup `tokens[k]` on the persisted tokens object, modelled
as first-match lookup in an association list. -/
def lookupKey (k : Str) (ts : List (Str × TokVal)) : Option TokVal :=
  (ts.find? (fun e => e.1 = k)).map (·.2)

/-- How a stored token value prints inside a JS template literal: a raw
string prints as itself, an object prints as `[object Object]`. -/
def tokValText : TokVal → Str
  | .raw tok => tok
  | .cred _ _ => str "[object Object]"

/-- The `username` property of a stored value inside a template literal: a
raw string has no such property, so JS renders `undefined`. -/
def usernameText : TokVal → Str
  | .raw _ => str "undefined"
  | .cred u _ => u

/-- `Deployer.doesItNeedsAuth` (deployer.js:343-352).  `none` models the JS
return value `false` (no credentials).  First the github.com special case
(fixed username `sailer`, stored `tokens.github`), then a linear scan of the
stored keys for the first one the canonical reference starts with. -/
def doesItNeedsAuth (repo : Str) (tokens : Option (List (Str × TokVal))) :
    Option TokVal :=
  match tokens with
  | none => none
  | some ts =>
    match (if startsWithL (str "github.com") repo
           then lookupKey (str "github") ts else none) with
    | some gv => some (.cred (str "sailer") (tokValText gv))
    | none => (ts.find? (fun e => startsWithL e.1 repo)).map (·.2)

/-- `Deployer.getCloneUrl` (deployer.js:304-311): the URL handed to the VCS
clone, with a `username:token@` authority exactly when credentials were
resolved. -/
def getCloneUrl (protocol repo : Str) (login : Option TokVal) : Str :=
  match login with
  | none => protocol ++ str "://" ++ repo
  | some v =>
      protocol ++ str "://" ++ usernameText v ++ str ":" ++ tokValText v
        ++ str "@" ++ repo

/-! ## Auxiliary services string (`Deployer.getServices`, deployer.js:205-217) -/

/-- `service.split('-')[1].toUpperCase()` (deployer.js:209): the second
hyphen-separated segment of the service identifier, uppercased.  When the
identifier has no hyphen, the JS dereferences `undefined` and throws; the
model returns `[]` there, and no theorem below exercises that case. -/
def serviceBaseName (key : Str) : Str :=
  ((jsSplit '-' key).getD 1 []).map Char.toUpper

/-- The fragment appended for one auxiliary service
(deployer.js:209-212): network flag, root-password variable, hostname
variable, each variable introduced by `--build-arg` (build) or `-e` (run). -/
def serviceChunk (build : Bool) (key pw : Str) : Str :=
  let serviceName := serviceBaseName key
  let variableName := (serviceName ++ str "_root_password").map Char.toUpper
  let envArg := if build then str "--build-arg" else str "-e"
  str "--network " ++ key ++ str " " ++ envArg ++ str " \"" ++ variableName
    ++ str "=" ++ pw ++ str "\" " ++ envArg ++ str " \"" ++ serviceName
    ++ str "_HOSTNAME=" ++ key ++ str "\" "

/-- `Deployer.getServices` (deployer.js:205-217).  `none` models
`this._services === null`; otherwise the per-service fragments are
concatenated in iteration order and the final trailing space is removed
(`slice(0,-1)`). -/
def getServices (svcs : Option (List (Str × Str))) (build : Bool) : Str :=
  match svcs with
  | none => []
  | some l => (l.foldl (fun acc e => acc ++ serviceChunk build e.1 e.2) []).dropLast

/-! ## Ports, directories, registry lookup -/

/-- `Deployer.getPortToPublish` (deployer.js:223-234): the caller-pinned
port when `this._deployPort !== null`, otherwise the first key of the built
image's `ExposedPorts` up to the first `/`.  `none` models the promise that
never resolves when the image exposes no port. -/
def getPortToPublish (deployPort : Option Str) (exposedPorts : List Str) :
    Option Str :=
  match deployPort with
  | some p => some p
  | none => exposedPorts.head?.map (List.takeWhile (fun c => !(c = '/')))

/-- `Deployer.getDockerfileDirectory` (deployer.js:61-72): joins the clone
root with the optional relative build path, inserting `/` exactly when
neither or both sides already provide one. -/
def getDockerfileDirectory (relativePath : Option Str) (path : Str) : Str :=
  match relativePath with
  | none => path
  | some rp =>
    if (!startsWithL (str "/") rp && !endsWithL (str "/") path)
        || (startsWithL (str "/") rp && endsWithL (str "/") path) then
      path ++ str "/" ++ rp
    else
      path ++ rp

/-- `Deployer.verifyIfExists` (deployer.js:168-180): scan the persisted
container directory (entries carrying a `domain` and a `uid`) for the first
entry whose domain equals the deployer's domain; `none` models the JS
resolution to `false` (including the absent-directory case). -/
def verifyIfExists (containers : Option (List (Str × Str))) (domain : Str) :
    Option Str :=
  match containers with
  | none => none
  | some cs => (cs.find? (fun e => e.1 = domain)).map (·.2)

/-! ## Deployer state, external world, and the pipeline as an action trace -/

/-- The state of a `Deployer` object after its constructor
(deployer.js:19-34) and the optional `deployServices` call: `deployId` is
the identifier produced by `uniqid()`, `protocol` and `repo` are the result
of `parseRepoUrl`, `cloneFolder` is `/tmp/<deployId>`, `deployPort` models
`_deployPort` (`none` = `null`), `relativePath` models `_relativePath`
(`none` = `undefined`), and `services` models `_services` (`none` =
`null`). -/
structure Deployer where
  deployId : Str
  protocol : Str
  repo : Str
  cloneFolder : Str
  relativePath : Option Str
  deployPort : Option Str
  domain : Str
  services : Option (List (Str × Str))

/-- The `Deployer` constructor (deployer.js:19-34) for a raw repository
reference; `uniqid()` is an external input, passed in as `deployId`. -/
def mkDeployer (rawRepo domain : Str) (deployPort : Option Str)
    (relativePath : Option Str) (deployId : Str)
    (services : Option (List (Str × Str))) : Deployer :=
  let pr := parseRepoUrl rawRepo
  { deployId := deployId
    protocol := pr.2
    repo := pr.1
    cloneFolder := str "/tmp/" ++ deployId
    relativePath := relativePath
    deployPort := deployPort
    domain := domain
    services := services }

/-- Results of every external interaction a deploy run can perform: the
persisted configuration, the outcomes of clone / build / registration, the
port handed out by `get-port`, and the docker inspect data of the built
image and of volumes. -/
structure World where
  containers : Option (List (Str × Str))
  tokens : Option (List (Str × TokVal))
  cloneFails : Bool
  buildFails : Bool
  registerFails : Bool
  freshPort : Nat
  exposedPorts : List Str
  workingDir : Str
  volumePath : Str → Str

/-- One observable external action of the pipeline, in source order of the
shell / fs / git / HTTP invocation it models. -/
inductive Action where
  | createVolume (name : Str)
  | stopContainer (name : Str)
  | gitClone (url dest : Str)
  | gitPull (path : Str)
  | dockerBuild (services tag context : Str)
  | allocPort (port : Nat)
  | writeNginxConf (domain : Str) (port : Nat)
  | reloadNginx
  | runContainer (name : Str) (hostPort : Nat) (containerPort : Str)
      (volumeName mountPath services image : Str)
  | registerContainer (domain uid repo : Str)
  | logError (msg : Str)
  | logWarn (msg : Str)
  | logSuccess (msg : Str)
  | processExit (code : Nat)
deriving DecidableEq

/-- deployer.js:95 -/
def msgCannotClone : Str := str "Error, cannot clone given repository."
/-- deployer.js:96 -/
def msgUseLogin : Str :=
  str "Please verify the URL and use the `login` command before if needed."
/-- deployer.js:133 (prefix of the interpolated message) -/
def msgExecError : Str := str "exec error:"
/-- deployer.js:155 -/
def msgWarnOnline : Str :=
  str "The container is online, but there was an error while contacting the master server."
/-- deployer.js:156 -/
def msgWarnInvestigate : Str := str "Please investigate."
/-- deployer.js:151 -/
def msgOkLaunched : Str := str "Container successfully launched!"
/-- deployer.js:152 -/
def msgOkUpdated : Str := str "Your website was updated from the latest sources."

/-- `Deployer.buildImage` (deployer.js:125-162) together with the stages it
chains on success: `deployNginxConfig` (252-258, which first runs
`generatePort`, 263-265), `launchContainer` (193-198) and
`registerToDatabase` (185-188).  A non-zero build exit logs the error and
calls `process.exit(1)`.  When the image exposes no port and none is
pinned, `getPortToPublish` never resolves, so nothing after the proxy
configuration runs. -/
def buildImage (d : Deployer) (w : World) (path : Str) : List Action :=
  Action.dockerBuild (getServices d.services true) d.deployId
      (getDockerfileDirectory d.relativePath path) ::
  if w.buildFails then
    [Action.logError msgExecError, Action.processExit 1]
  else
    Action.allocPort w.freshPort ::
    Action.writeNginxConf d.domain w.freshPort ::
    Action.reloadNginx ::
    match getPortToPublish d.deployPort w.exposedPorts with
    | none => []
    | some cp =>
      Action.runContainer d.deployId w.freshPort cp d.deployId w.workingDir
          (getServices d.services false) d.deployId ::
      Action.registerContainer d.domain d.deployId d.repo ::
      if w.registerFails then
        [Action.logWarn msgWarnOnline, Action.logWarn msgWarnInvestigate]
      else
        [Action.logSuccess msgOkLaunched, Action.logSuccess msgOkUpdated]

/-- `Deployer.deploy` (deployer.js:78-98).  The registry is consulted, the
volume named by the fresh `deployId` is created (deployer.js:81, before the
create-vs-update decision), then either `updateDepoyment` (104-119: stop the
stored container, pull into its volume mountpoint, rebuild from there) or
the clone-then-build create path runs.  A failed clone only logs the two
diagnostics — the `.catch` handler neither retries nor exits. -/
def deploy (d : Deployer) (w : World) : List Action :=
  let cloneUrl := getCloneUrl d.protocol d.repo (doesItNeedsAuth d.repo w.tokens)
  Action.createVolume d.deployId ::
  match verifyIfExists w.containers d.domain with
  | some uid =>
    Action.stopContainer uid ::
    Action.gitPull (w.volumePath uid) ::
    buildImage d w (w.volumePath uid)
  | none =>
    if w.cloneFails then
      [Action.gitClone cloneUrl d.cloneFolder,
       Action.logError msgCannotClone, Action.logError msgUseLogin]
    else
      Action.gitClone cloneUrl d.cloneFolder :: buildImage d w d.cloneFolder

/-! ## Trace observations -/

/-- Names passed to `docker volume create`. -/
def createdVolumes (tr : List Action) : List Str :=
  tr.filterMap fun a => match a with | .createVolume n => some n | _ => none

/-- Names passed to `docker container stop`. -/
def stoppedContainers (tr : List Action) : List Str :=
  tr.filterMap fun a => match a with | .stopContainer n => some n | _ => none

/-- (url, destination) pairs of attempted git clones. -/
def gitClones (tr : List Action) : List (Str × Str) :=
  tr.filterMap fun a => match a with | .gitClone u dest => some (u, dest) | _ => none

/-- Paths of attempted git pulls. -/
def gitPulls (tr : List Action) : List Str :=
  tr.filterMap fun a => match a with | .gitPull p => some p | _ => none

/-- Image tags passed to `docker build -t`. -/
def dockerBuildTags (tr : List Action) : List Str :=
  tr.filterMap fun a => match a with | .dockerBuild _ t _ => some t | _ => none

/-- Build context directories passed to `docker build`. -/
def dockerBuildContexts (tr : List Action) : List Str :=
  tr.filterMap fun a => match a with | .dockerBuild _ _ c => some c | _ => none

/-- Ports obtained from the `get-port` allocator. -/
def allocPorts (tr : List Action) : List Nat :=
  tr.filterMap fun a => match a with | .allocPort p => some p | _ => none

/-- (domain, host port) pairs written into proxy configuration files. -/
def nginxWrites (tr : List Action) : List (Str × Nat) :=
  tr.filterMap fun a => match a with | .writeNginxConf d p => some (d, p) | _ => none

/-- Container names passed to `docker container run --name`. -/
def runNames (tr : List Action) : List Str :=
  tr.filterMap fun a => match a with | .runContainer n _ _ _ _ _ _ => some n | _ => none

/-- Container-side published ports of `docker container run -p`. -/
def runContainerPorts (tr : List Action) : List Str :=
  tr.filterMap fun a => match a with | .runContainer _ _ cp _ _ _ _ => some cp | _ => none

/-- Volume names mounted by `docker container run -v`. -/
def runVolumeNames (tr : List Action) : List Str :=
  tr.filterMap fun a => match a with | .runContainer _ _ _ v _ _ _ => some v | _ => none

/-- Image names started by `docker container run`. -/
def runImages (tr : List Action) : List Str :=
  tr.filterMap fun a => match a with | .runContainer _ _ _ _ _ _ i => some i | _ => none

/-- (domain, uid, repo) triples sent to registration. -/
def registrations (tr : List Action) : List (Str × Str × Str) :=
  tr.filterMap fun a => match a with | .registerContainer d u r => some (d, u, r) | _ => none

/-- Messages logged on the error channel (`console.error`, red). -/
def logErrors (tr : List Action) : List Str :=
  tr.filterMap fun a => match a with | .logError m => some m | _ => none

/-- Messages logged as warnings (yellow). -/
def logWarns (tr : List Action) : List Str :=
  tr.filterMap fun a => match a with | .logWarn m => some m | _ => none

/-- Exit codes of explicit `process.exit` calls. -/
def processExits (tr : List Action) : List Nat :=
  tr.filterMap fun a => match a with | .processExit c => some c | _ => none

/-! ## Concrete instances used by witnesses and counterexamples -/

/-- A concrete deployer: fresh id `k2x`, domain `app.example.com`, raw
repository `https://gitlab.com/acme/app.git`, no pinned port, no relative
path, no services. -/
def exampleDeployer : Deployer :=
  mkDeployer (str "https://gitlab.com/acme/app.git") (str "app.example.com")
    none none (str "k2x") none

/-- A concrete world in which the domain is already registered under uid
`old7` and every external step succeeds. -/
def exampleWorldUpdate : World :=
  { containers := some [(str "app.example.com", str "old7")]
    tokens := none
    cloneFails := false
    buildFails := false
    registerFails := false
    freshPort := 41717
    exposedPorts := [str "80/tcp"]
    workingDir := str "/app"
    volumePath := fun n => str "/var/lib/docker/volumes/" ++ n }

/-- A concrete world with no registered containers in which the clone
fails. -/
def exampleWorldCloneFail : World :=
  { exampleWorldUpdate with containers := none, cloneFails := true }

/-- A concrete world with no registered containers in which the image build
exits non-zero. -/
def exampleWorldBuildFail : World :=
  { exampleWorldUpdate with containers := none, buildFails := true }

/-- A concrete world with no registered containers in which everything
succeeds except the registration call. -/
def exampleWorldRegisterFail : World :=
  { exampleWorldUpdate with containers := none, registerFails := true }

/-! ## C4 — build failure halts the pipeline -/

/-- C4: if the image build exits non-zero, the pipeline halts at that stage
and the process terminates with exit status 1; no proxy configuration is
written, no container is launched, and no registration is attempted after
the failed build.  Stated for both the create and the update branch (any
registry content), assuming the pipeline reaches the build (the clone does
not fail). -/
theorem c4_build_failure_halts (d : Deployer) (w : World)
    (hclone : w.cloneFails = false) (hbuild : w.buildFails = true) :
    nginxWrites (deploy d w) = [] ∧ runNames (deploy d w) = [] ∧
    registrations (deploy d w) = [] ∧ processExits (deploy d w) = [1] := by
  cases hv : verifyIfExists w.containers d.domain with
  | some uid =>
    simp [deploy, buildImage, hv, hbuild, nginxWrites, runNames,
      registrations, processExits]
  | none =>
    simp [deploy, buildImage, hv, hclone, hbuild, nginxWrites, runNames,
      registrations, processExits]

/-- Witness for C4 at the concrete build-failure world. -/
theorem c4_build_failure_halts_witness :
    nginxWrites (deploy exampleDeployer exampleWorldBuildFail) = [] ∧
    runNames (deploy exampleDeployer exampleWorldBuildFail) = [] ∧
    registrations (deploy exampleDeployer exampleWorldBuildFail) = [] ∧
    processExits (deploy exampleDeployer exampleWorldBuildFail) = [1] :=
  c4_build_failure_halts exampleDeployer exampleWorldBuildFail rfl rfl

/-! ## C5 — clone failure: aborts without retry, but does not exit non-zero -/

/-- C5 counterexample: at a concrete fresh deployment whose clone fails, the
run performs no `process.exit` at all (the `.catch` handler at
deployer.js:93-97 only logs), contradicting the claim that the process
terminates with a non-zero exit code on clone failure. -/
theorem c5_counterexample :
    verifyIfExists exampleWorldCloneFail.containers exampleDeployer.domain = none ∧
    exampleWorldCloneFail.cloneFails = true ∧
    processExits (deploy exampleDeployer exampleWorldCloneFail) = [] := by decide

/-- C5 as amended: for every deploy on the Creating branch whose clone
fails, the pipeline aborts with no retry — a single clone attempt, no image
build, proxy configuration, container launch, or registration — the two
user-facing diagnostics (including the re-authentication hint) are emitted
on the error channel, and no `process.exit` call is made (the run ends
without an explicit non-zero exit status). -/
theorem c5_clone_failure_aborts (d : Deployer) (w : World)
    (hmiss : verifyIfExists w.containers d.domain = none)
    (hclone : w.cloneFails = true) :
    gitClones (deploy d w) =
      [(getCloneUrl d.protocol d.repo (doesItNeedsAuth d.repo w.tokens),
        d.cloneFolder)] ∧
    dockerBuildTags (deploy d w) = [] ∧ nginxWrites (deploy d w) = [] ∧
    runNames (deploy d w) = [] ∧ registrations (deploy d w) = [] ∧
    logErrors (deploy d w) = [msgCannotClone, msgUseLogin] ∧
    processExits (deploy d w) = [] := by
  simp [deploy, hmiss, hclone, gitClones, dockerBuildTags, nginxWrites,
    runNames, registrations, logErrors, processExits]

/-- Witness for the amended C5 at the concrete clone-failure world. -/
theorem c5_clone_failure_aborts_witness :
    gitClones (deploy exampleDeployer exampleWorldCloneFail) =
      [(str "https://gitlab.com/acme/app", str "/tmp/k2x")] ∧
    dockerBuildTags (deploy exampleDeployer exampleWorldCloneFail) = [] ∧
    nginxWrites (deploy exampleDeployer exampleWorldCloneFail) = [] ∧
    runNames (deploy exampleDeployer exampleWorldCloneFail) = [] ∧
    registrations (deploy exampleDeployer exampleWorldCloneFail) = [] ∧
    logErrors (deploy exampleDeployer exampleWorldCloneFail) =
      [msgCannotClone, msgUseLogin] ∧
    processExits (deploy exampleDeployer exampleWorldCloneFail) = [] :=
  c5_clone_failure_aborts exampleDeployer exampleWorldCloneFail rfl rfl

/-! ## C6 — registration failure is a warning, the container stays up -/

/-- C6: if registration fails after a successful container launch, the
failure is reported as the two yellow warnings (a channel distinct from the
red error channel used for build/clone failures, which stays empty), no
`process.exit` occurs, and the launched container is neither stopped nor
rolled back.  Stated over `buildImage` — the build/configure/launch/register
tail that both the create and the update branch enter. -/
theorem c6_registration_failure_warns (d : Deployer) (w : World) (path : Str)
    (hbuild : w.buildFails = false) (hreg : w.registerFails = true)
    (hport : (getPortToPublish d.deployPort w.exposedPorts).isSome = true) :
    runNames (buildImage d w path) = [d.deployId] ∧
    registrations (buildImage d w path) = [(d.domain, d.deployId, d.repo)] ∧
    logWarns (buildImage d w path) = [msgWarnOnline, msgWarnInvestigate] ∧
    logErrors (buildImage d w path) = [] ∧
    stoppedContainers (buildImage d w path) = [] ∧
    processExits (buildImage d w path) = [] := by
  obtain ⟨cp, hcp⟩ := Option.isSome_iff_exists.mp hport
  simp [buildImage, hbuild, hreg, hcp, runNames, registrations, logWarns,
    logErrors, stoppedContainers, processExits]

/-- Witness for C6 at the concrete registration-failure world. -/
theorem c6_registration_failure_warns_witness :
    runNames (buildImage exampleDeployer exampleWorldRegisterFail (str "/tmp/k2x"))
      = [str "k2x"] ∧
    registrations (buildImage exampleDeployer exampleWorldRegisterFail (str "/tmp/k2x"))
      = [(str "app.example.com", str "k2x", str "gitlab.com/acme/app")] ∧
    logWarns (buildImage exampleDeployer exampleWorldRegisterFail (str "/tmp/k2x"))
      = [msgWarnOnline, msgWarnInvestigate] ∧
    logErrors (buildImage exampleDeployer exampleWorldRegisterFail (str "/tmp/k2x")) = [] ∧
    stoppedContainers (buildImage exampleDeployer exampleWorldRegisterFail (str "/tmp/k2x")) = [] ∧
    processExits (buildImage exampleDeployer exampleWorldRegisterFail (str "/tmp/k2x")) = [] :=
  c6_registration_failure_warns exampleDeployer exampleWorldRegisterFail
    (str "/tmp/k2x") rfl rfl rfl

/-! ## C8 — published container port resolution -/

/-- C8: for every deployment reaching the launch stage, the published
container port is the caller-pinned explicit port whenever one was provided,
and otherwise the first port listed in the built image's `ExposedPorts`
metadata (up to its `/tcp` qualifier). -/
theorem c8_published_port (d : Deployer) (w : World) (path : Str)
    (hbuild : w.buildFails = false) :
    (∀ cp, d.deployPort = some cp →
      runContainerPorts (buildImage d w path) = [cp]) ∧
    (d.deployPort = none → ∀ q qs, w.exposedPorts = q :: qs →
      runContainerPorts (buildImage d w path)
        = [q.takeWhile (fun c => !(c = '/'))]) := by
  constructor
  · intro cp hcp
    cases hr : w.registerFails <;>
      simp [buildImage, hbuild, hr, getPortToPublish, hcp, runContainerPorts]
  · intro hnone q qs hq
    cases hr : w.registerFails <;>
      simp [buildImage, hbuild, hr, getPortToPublish, hnone, hq, runContainerPorts]

/-- A concrete deployer with a caller-pinned port `3000`. -/
def examplePinnedDeployer : Deployer :=
  mkDeployer (str "https://gitlab.com/acme/app.git") (str "app.example.com")
    (some (str "3000")) none (str "k2x") none

/-- Witness for C8: with a pinned port the container publishes `3000`; with
no pinned port it publishes `80`, the first exposed port of the image. -/
theorem c8_published_port_witness :
    runContainerPorts (buildImage examplePinnedDeployer exampleWorldUpdate (str "/srv"))
      = [str "3000"] ∧
    runContainerPorts (buildImage exampleDeployer exampleWorldUpdate (str "/srv"))
      = [str "80"] :=
  ⟨(c8_published_port examplePinnedDeployer exampleWorldUpdate (str "/srv") rfl).1
      (str "3000") rfl,
   (c8_published_port exampleDeployer exampleWorldUpdate (str "/srv") rfl).2
      rfl (str "80/tcp") [] rfl⟩

/-! ## C9 — no stored credential: bare clone URL -/

lemma startsWithL_mono {a b l : Str} (h : startsWithL (a ++ b) l = true) :
    startsWithL a l = true := by
  induction a generalizing l with
  | nil => rfl
  | cons c cs ih =>
    cases l with
    | nil => simp [startsWithL] at h
    | cons x xs =>
      simp only [List.cons_append, startsWithL, Bool.and_eq_true] at h ⊢
      exact ⟨h.1, ih h.2⟩

/-- C9: when no stored token key is a prefix of the canonical repository
reference (which also rules out the `github.com` special case, whose stored
token lives under the key `github`), credential resolution returns none and
the clone URL is `protocol://repo` with no `username:token@` authority
segment. -/
theorem c9_no_credentials (protocol repo : Str)
    (tokens : Option (List (Str × TokVal)))
    (hgen : ∀ e ∈ tokens.getD [], startsWithL e.1 repo = false) :
    doesItNeedsAuth repo tokens = none ∧
    getCloneUrl protocol repo (doesItNeedsAuth repo tokens)
      = protocol ++ str "://" ++ repo := by
  cases tokens with
  | none => exact ⟨rfl, rfl⟩
  | some ts =>
    have hgen' : ∀ e ∈ ts, startsWithL e.1 repo = false :=
      fun e he => hgen e he
    have hfind : ts.find? (fun e => startsWithL e.1 repo) = none := by
      rw [List.find?_eq_none]
      intro e he
      simp [hgen' e he]
    have hgh : (if startsWithL (str "github.com") repo
        then lookupKey (str "github") ts else none) = none := by
      by_cases hs : startsWithL (str "github.com") repo = true
      · rw [if_pos hs]
        unfold lookupKey
        cases hf : ts.find? (fun e => e.1 = str "github") with
        | none => rfl
        | some e =>
          have hp := List.find?_some hf
          have hmem := List.mem_of_find?_eq_some hf
          have hkey : e.1 = str "github" := by simpa using hp
          have hpre : startsWithL (str "github") repo = true :=
            startsWithL_mono (a := str "github") (b := str ".com") hs
          have := hgen' e hmem
          rw [hkey] at this
          rw [this] at hpre
          exact absurd hpre (by simp)
      · rw [if_neg hs]
    have hres : doesItNeedsAuth repo (some ts) = none := by
      show (match (if startsWithL (str "github.com") repo
          then lookupKey (str "github") ts else none) with
        | some gv => some (TokVal.cred (str "sailer") (tokValText gv))
        | none => (ts.find? (fun e => startsWithL e.1 repo)).map (·.2)) = none
      rw [hgh, hfind]
      rfl
    refine ⟨hres, ?_⟩
    rw [hres]
    rfl

/-- Witness for C9: a reference on a host with no matching stored token. -/
theorem c9_no_credentials_witness :
    doesItNeedsAuth (str "gitlab.com/acme/app")
      (some [(str "bitbucket.org", TokVal.cred (str "u") (str "t"))]) = none ∧
    getCloneUrl (str "https") (str "gitlab.com/acme/app")
      (doesItNeedsAuth (str "gitlab.com/acme/app")
        (some [(str "bitbucket.org", TokVal.cred (str "u") (str "t"))]))
      = str "https://gitlab.com/acme/app" :=
  c9_no_credentials (str "https") (str "gitlab.com/acme/app")
    (some [(str "bitbucket.org", TokVal.cred (str "u") (str "t"))])
    (by decide)

/-! ## C10 — one identifier names image, container and volume -/

/-- C10: for every freshly created deployment (registry miss, clone and
build succeed, the published port resolves), the single identifier generated
at construction is simultaneously the docker image tag, the launched
container's name, the image it runs, the volume created for the deployment
and the volume mounted into the container. -/
theorem c10_single_identifier (d : Deployer) (w : World)
    (hmiss : verifyIfExists w.containers d.domain = none)
    (hclone : w.cloneFails = false) (hbuild : w.buildFails = false)
    (hport : (getPortToPublish d.deployPort w.exposedPorts).isSome = true) :
    dockerBuildTags (deploy d w) = [d.deployId] ∧
    runNames (deploy d w) = [d.deployId] ∧
    runVolumeNames (deploy d w) = [d.deployId] ∧
    runImages (deploy d w) = [d.deployId] ∧
    createdVolumes (deploy d w) = [d.deployId] := by
  obtain ⟨cp, hcp⟩ := Option.isSome_iff_exists.mp hport
  cases hr : w.registerFails <;>
    simp [deploy, buildImage, hmiss, hclone, hbuild, hr, hcp, dockerBuildTags,
      runNames, runVolumeNames, runImages, createdVolumes]

/-- A concrete world with an empty registry in which everything succeeds. -/
def exampleWorldCreate : World :=
  { exampleWorldUpdate with containers := none }

/-- Witness for C10 at the concrete fresh-deployment world. -/
theorem c10_single_identifier_witness :
    dockerBuildTags (deploy exampleDeployer exampleWorldCreate) = [str "k2x"] ∧
    runNames (deploy exampleDeployer exampleWorldCreate) = [str "k2x"] ∧
    runVolumeNames (deploy exampleDeployer exampleWorldCreate) = [str "k2x"] ∧
    runImages (deploy exampleDeployer exampleWorldCreate) = [str "k2x"] ∧
    createdVolumes (deploy exampleDeployer exampleWorldCreate) = [str "k2x"] :=
  c10_single_identifier exampleDeployer exampleWorldCreate rfl rfl rfl rfl

/-! ## C1 — what the update branch actually reuses -/

/-- C1 counterexample: at a concrete deploy whose domain is already
registered under uid `old7` (so the `Updating` branch is taken), the image
build is tagged, the container is launched and named, and the deployment is
registered with the fresh identifier `k2x` — not the stored `old7` — and a
new volume named `k2x` is created.  This falsifies the claim that build,
launch and registration use the original `deploymentId` and that no new
volume is introduced. -/
theorem c1_counterexample :
    verifyIfExists exampleWorldUpdate.containers exampleDeployer.domain
      = some (str "old7") ∧
    dockerBuildTags (deploy exampleDeployer exampleWorldUpdate) = [str "k2x"] ∧
    runNames (deploy exampleDeployer exampleWorldUpdate) = [str "k2x"] ∧
    runVolumeNames (deploy exampleDeployer exampleWorldUpdate) = [str "k2x"] ∧
    registrations (deploy exampleDeployer exampleWorldUpdate)
      = [(str "app.example.com", str "k2x", str "gitlab.com/acme/app")] ∧
    ¬ (dockerBuildTags (deploy exampleDeployer exampleWorldUpdate) = [str "old7"] ∧
       createdVolumes (deploy exampleDeployer exampleWorldUpdate) = []) := by
  decide

/-- C1 as amended: for every deploy whose domain already has an entry in the
persisted container directory, the `Updating` branch stops the container
named by the stored uid and pulls the sources into (and rebuilds from) that
original deployment's volume mountpoint; but the image build tag, the
launched container's name, its mounted volume and the registration all use
the fresh `deploymentId` generated at construction, and a new volume named
by that fresh identifier is created before the branch decision. -/
theorem c1_update_branch (d : Deployer) (w : World) (uid : Str)
    (hhit : verifyIfExists w.containers d.domain = some uid)
    (hbuild : w.buildFails = false)
    (hport : (getPortToPublish d.deployPort w.exposedPorts).isSome = true) :
    stoppedContainers (deploy d w) = [uid] ∧
    gitPulls (deploy d w) = [w.volumePath uid] ∧
    dockerBuildContexts (deploy d w)
      = [getDockerfileDirectory d.relativePath (w.volumePath uid)] ∧
    dockerBuildTags (deploy d w) = [d.deployId] ∧
    runNames (deploy d w) = [d.deployId] ∧
    runVolumeNames (deploy d w) = [d.deployId] ∧
    registrations (deploy d w) = [(d.domain, d.deployId, d.repo)] ∧
    createdVolumes (deploy d w) = [d.deployId] := by
  obtain ⟨cp, hcp⟩ := Option.isSome_iff_exists.mp hport
  cases hr : w.registerFails <;>
    simp [deploy, buildImage, hhit, hbuild, hr, hcp, stoppedContainers,
      gitPulls, dockerBuildContexts, dockerBuildTags, runNames,
      runVolumeNames, registrations, createdVolumes]

/-- Witness for the amended C1 at the concrete update world. -/
theorem c1_update_branch_witness :
    stoppedContainers (deploy exampleDeployer exampleWorldUpdate) = [str "old7"] ∧
    gitPulls (deploy exampleDeployer exampleWorldUpdate)
      = [str "/var/lib/docker/volumes/old7"] ∧
    dockerBuildContexts (deploy exampleDeployer exampleWorldUpdate)
      = [str "/var/lib/docker/volumes/old7"] ∧
    dockerBuildTags (deploy exampleDeployer exampleWorldUpdate) = [str "k2x"] ∧
    runNames (deploy exampleDeployer exampleWorldUpdate) = [str "k2x"] ∧
    runVolumeNames (deploy exampleDeployer exampleWorldUpdate) = [str "k2x"] ∧
    registrations (deploy exampleDeployer exampleWorldUpdate)
      = [(str "app.example.com", str "k2x", str "gitlab.com/acme/app")] ∧
    createdVolumes (deploy exampleDeployer exampleWorldUpdate) = [str "k2x"] :=
  c1_update_branch exampleDeployer exampleWorldUpdate (str "old7") rfl rfl rfl

/-! ## C2 — the proxy port is re-allocated on every run -/

/-- C2 counterexample: at a concrete deploy taking the `Updating` branch,
the run still performs a fresh port allocation and writes the freshly
allocated port `41717` into the proxy configuration, falsifying the claim
that `ConfiguringProxy` allocates a fresh port only for a brand-new
deployment and that an update preserves the existing proxy binding. -/
theorem c2_counterexample :
    verifyIfExists exampleWorldUpdate.containers exampleDeployer.domain
      = some (str "old7") ∧
    allocPorts (deploy exampleDeployer exampleWorldUpdate) ≠ [] ∧
    nginxWrites (deploy exampleDeployer exampleWorldUpdate)
      = [(str "app.example.com", 41717)] := by
  decide

/-- C2 as amended: on every deploy that reaches a successful build — update
branch included — `deployNginxConfig` first allocates a fresh host port via
the port allocator and writes exactly that port into the domain's proxy
configuration; the host port of an update is not preserved or re-read from
anywhere.  (What is re-read from image metadata, or kept as pinned, is the
container-side published port, `getPortToPublish`.) -/
theorem c2_update_port_reallocated (d : Deployer) (w : World) (uid : Str)
    (hhit : verifyIfExists w.containers d.domain = some uid)
    (hbuild : w.buildFails = false) :
    allocPorts (deploy d w) = [w.freshPort] ∧
    nginxWrites (deploy d w) = [(d.domain, w.freshPort)] := by
  cases hr : w.registerFails <;>
    cases hcp : getPortToPublish d.deployPort w.exposedPorts <;>
      simp [deploy, buildImage, hhit, hbuild, hr, hcp, allocPorts, nginxWrites]

/-- Witness for the amended C2 at the concrete update world. -/
theorem c2_update_port_reallocated_witness :
    allocPorts (deploy exampleDeployer exampleWorldUpdate) = [41717] ∧
    nginxWrites (deploy exampleDeployer exampleWorldUpdate)
      = [(str "app.example.com", 41717)] :=
  c2_update_port_reallocated exampleDeployer exampleWorldUpdate (str "old7") rfl rfl

/-! ## C7 — per-service build/run flags -/

lemma jsSplit_ne_nil (c : Char) (l : Str) : jsSplit c l ≠ [] := by
  cases l with
  | nil => simp [jsSplit]
  | cons x xs =>
    simp only [jsSplit]
    cases jsSplit c xs with
    | nil => simp
    | cons y ys => by_cases h : x = c <;> simp [h]

lemma jsSplit_not_mem {c : Char} {l : Str} (h : c ∉ l) : jsSplit c l = [l] := by
  induction l with
  | nil => rfl
  | cons x xs ih =>
    have hx : ¬ x = c := fun hxc => h (List.mem_cons.mpr (Or.inl hxc.symm))
    have ih' := ih (fun hm => h (List.mem_cons_of_mem _ hm))
    simp [jsSplit, ih', hx]

lemma jsSplit_sep {c : Char} {pre rest : Str} (h : c ∉ pre) :
    jsSplit c (pre ++ c :: rest) = pre :: jsSplit c rest := by
  induction pre with
  | nil =>
    simp only [List.nil_append, jsSplit]
    cases hs : jsSplit c rest with
    | nil => exact absurd hs (jsSplit_ne_nil c rest)
    | cons y ys => simp
  | cons x xs ih =>
    have hx : ¬ x = c := fun hxc => h (List.mem_cons.mpr (Or.inl hxc.symm))
    have ih' := ih (fun hm => h (List.mem_cons_of_mem _ hm))
    simp [jsSplit, ih', hx]

lemma serviceBaseName_eq {pre nm : Str} (hpre : '-' ∉ pre) (hnm : '-' ∉ nm) :
    serviceBaseName (pre ++ '-' :: nm) = nm.map Char.toUpper := by
  unfold serviceBaseName
  rw [jsSplit_sep hpre, jsSplit_not_mem hnm]
  rfl

lemma char_ofNat_toUpper_fixed (m : Nat) (h1 : 65 ≤ m) (h2 : m ≤ 90) :
    (Char.ofNat m).toUpper = Char.ofNat m := by
  interval_cases m <;> decide

lemma char_toUpper_idem (c : Char) : (Char.toUpper c).toUpper = Char.toUpper c := by
  by_cases h : 97 ≤ c.toNat ∧ c.toNat ≤ 122
  · have hc : Char.toUpper c = Char.ofNat (c.toNat - 32) := by
      simp only [Char.toUpper]
      rw [if_pos h]
    rw [hc]
    exact char_ofNat_toUpper_fixed (c.toNat - 32) (by omega) (by omega)
  · have hc : Char.toUpper c = c := by
      simp only [Char.toUpper]
      rw [if_neg h]
    rw [hc]
    exact hc

lemma map_toUpper_idem (l : Str) :
    (l.map Char.toUpper).map Char.toUpper = l.map Char.toUpper := by
  induction l with
  | nil => rfl
  | cons x xs ih => simp [char_toUpper_idem, ih]

/-- The per-service fragment as claim C7 literally describes it: a
`--network <name>` flag plus variables `<SERVICE>_ROOT_PASSWORD` (the
generated credential) and `<SERVICE>_HOSTNAME` (the service name), where
`<SERVICE>` is the service name uppercased; written from the claim's words
for comparison with `serviceChunk`. -/
def claimC7Chunk (build : Bool) (nameKey pw : Str) : Str :=
  let up := nameKey.map Char.toUpper
  let envArg := if build then str "--build-arg" else str "-e"
  str "--network " ++ nameKey ++ str " " ++ envArg ++ str " \"" ++ up
    ++ str "_ROOT_PASSWORD" ++ str "=" ++ pw ++ str "\" " ++ envArg
    ++ str " \"" ++ up ++ str "_HOSTNAME=" ++ nameKey ++ str "\" "

/-- The whole services string as claim C7 literally describes it. -/
def claimC7Services (svcs : Option (List (Str × Str))) (build : Bool) : Str :=
  match svcs with
  | none => []
  | some l => (l.foldl (fun acc e => acc ++ claimC7Chunk build e.1 e.2) []).dropLast

/-- C7 counterexample: for the service binding `x1-db ↦ pw`, the build
invocation produced by the code prefixes the variables with `DB` (the
uppercased segment after the first hyphen), not with the uppercased service
name `X1-DB` the claim prescribes, so the code's services string differs
from the claim's. -/
theorem c7_counterexample :
    getServices (some [(str "x1-db", str "pw")]) true
      ≠ claimC7Services (some [(str "x1-db", str "pw")]) true := by
  decide

/-- The per-service fragment as amended: for a service identifier of the
form `pre-base` (no other hyphens), `--network` and the `_HOSTNAME` value
carry the full identifier, while the variable-name prefix `<NAME>` is only
`base`, uppercased. -/
def amendedServiceChunk (build : Bool) (key base pw : Str) : Str :=
  let up := base.map Char.toUpper
  let envArg := if build then str "--build-arg" else str "-e"
  str "--network " ++ key ++ str " " ++ envArg ++ str " \""
    ++ (up ++ str "_ROOT_PASSWORD") ++ str "=" ++ pw ++ str "\" " ++ envArg
    ++ str " \"" ++ up ++ str "_HOSTNAME=" ++ key ++ str "\" "

lemma serviceChunk_eq_amended {pre base : Str} (build : Bool) (pw : Str)
    (hpre : '-' ∉ pre) (hbase : '-' ∉ base) :
    serviceChunk build (pre ++ '-' :: base) pw
      = amendedServiceChunk build (pre ++ '-' :: base) base pw := by
  simp only [serviceChunk, amendedServiceChunk]
  rw [serviceBaseName_eq hpre hbase, List.map_append, map_toUpper_idem]
  have hrp : (str "_root_password").map Char.toUpper = str "_ROOT_PASSWORD" := by
    decide
  rw [hrp]

/-- C7 as amended: for every list of auxiliary service bindings whose
identifiers have the form `pre-base` (a hyphen-free prefix, then the
hyphen-free base name), the build invocation includes, per service, a
`--network <identifier>` flag plus build-arg variables
`<BASE>_ROOT_PASSWORD` (set to the generated credential) and
`<BASE>_HOSTNAME` (set to the full identifier), where `<BASE>` is the base
name — the segment after the first hyphen — uppercased; the launch
invocation injects the same per-service pairs with `-e` runtime env flags
instead of `--build-arg`. -/
theorem c7_services_injection (build : Bool) (ts : List (Str × Str × Str))
    (h : ∀ t ∈ ts, '-' ∉ t.1 ∧ '-' ∉ t.2.1) :
    getServices (some (ts.map (fun t => (t.1 ++ '-' :: t.2.1, t.2.2)))) build
      = (ts.foldl (fun acc t =>
          acc ++ amendedServiceChunk build (t.1 ++ '-' :: t.2.1) t.2.1 t.2.2)
          []).dropLast := by
  simp only [getServices]
  have aux : ∀ (l : List (Str × Str × Str)),
      (∀ t ∈ l, '-' ∉ t.1 ∧ '-' ∉ t.2.1) → ∀ acc : Str,
      (l.map (fun t => (t.1 ++ '-' :: t.2.1, t.2.2))).foldl
          (fun acc e => acc ++ serviceChunk build e.1 e.2) acc
        = l.foldl (fun acc t =>
            acc ++ amendedServiceChunk build (t.1 ++ '-' :: t.2.1) t.2.1 t.2.2)
            acc := by
    intro l
    induction l with
    | nil => intro _ _; rfl
    | cons t rest ih =>
      intro hl acc
      simp only [List.map_cons, List.foldl_cons]
      rw [serviceChunk_eq_amended build t.2.2 (hl t (List.mem_cons_self _ _)).1
        (hl t (List.mem_cons_self _ _)).2]
      exact ih (fun t' ht' => hl t' (List.mem_cons_of_mem _ ht')) _
  rw [aux ts h []]

/-- Witness for the amended C7: the binding `x1-db ↦ pw` yields the network
flag for `x1-db`, `DB_ROOT_PASSWORD=pw` and `DB_HOSTNAME=x1-db`, with
`--build-arg` at build time and `-e` at launch time. -/
theorem c7_services_injection_witness :
    getServices (some [(str "x1-db", str "pw")]) true
      = str "--network x1-db --build-arg \"DB_ROOT_PASSWORD=pw\" --build-arg \"DB_HOSTNAME=x1-db\"" ∧
    getServices (some [(str "x1-db", str "pw")]) false
      = str "--network x1-db -e \"DB_ROOT_PASSWORD=pw\" -e \"DB_HOSTNAME=x1-db\"" := by
  constructor
  · have h := c7_services_injection true [(str "x1", str "db", str "pw")]
      (by decide)
    exact h
  · have h := c7_services_injection false [(str "x1", str "db", str "pw")]
      (by decide)
    exact h

end Sailer
